import Mathlib

/-!
Verification development for the `mcp-web-client-frontend` repository.

The embedding models the client-side streaming-response reducer and form
validation of the chat client:

* `src/components/ChatInterface.tsx` — `processStreamingResponse`
  (lines 130–211), `processFunctionCallResults` (213–269),
  `processToolExecutionStream` (404–505), and the send-blocking state
  (`sendMessage` guard at line 84, disabled inputs at 1127/1131,
  `handleAddServer` at 271–337).
* `src/components/McpCredentialModal.tsx` — `validateForm` (71–82) and
  `handleSubmit` (84–118).

JavaScript strings are modelled as `List Char` (`JStr`); `JSON.parse` is
modelled by the executable `parseJson` below.  Numbers are modelled as
integers: the frames this client consumes carry strings, booleans, objects,
arrays and integral counts/durations only.
-/

/-- Model of a JavaScript string: a sequence of characters. -/
abbrev JStr := List Char

/-- Character sequence of a Lean string literal. -/
def js (s : String) : JStr := s.data

/-- Model of a JavaScript JSON value as produced by `JSON.parse`.
Object fields are kept in textual order; duplicate keys are resolved by
`getField` taking the last occurrence, as `JSON.parse` does. -/
inductive Json where
  | null : Json
  | bool (b : Bool) : Json
  | num (n : Int) : Json
  | str (s : JStr) : Json
  | arr (elems : List Json) : Json
  | obj (fields : List (JStr × Json)) : Json

/-- Property access `j.name` on a parsed value: defined for objects
(last duplicate key wins, as in `JSON.parse`), `none` (JS `undefined`)
otherwise.  Call sites that would throw on `null` in JS guard for it
explicitly. -/
def getField (j : Json) (name : JStr) : Option Json :=
  match j with
  | .obj fields => fields.foldl (fun acc kv => if kv.1 = name then some kv.2 else acc) none
  | _ => none

/-- Optional-chaining access `o?.name`: `undefined` propagates. -/
def optField (o : Option Json) (name : JStr) : Option Json :=
  match o with
  | some j => getField j name
  | none => none

/-- Test whether an accessed value strictly equals (`===`) a given string. -/
def isStrEq (o : Option Json) (t : JStr) : Bool :=
  match o with
  | some (.str s) => s = t
  | _ => false

/-- Test whether an accessed value strictly equals (`===`) `true`. -/
def isTrueVal (o : Option Json) : Bool :=
  match o with
  | some (.bool true) => true
  | _ => false

/-- JavaScript truthiness of a JSON value. -/
def truthyJ : Json → Bool
  | .null => false
  | .bool b => b
  | .num n => decide (n ≠ 0)
  | .str s => decide (s ≠ [])
  | .arr _ => true
  | .obj _ => true

/-- JavaScript truthiness of a possibly-undefined value. -/
def truthyO : Option Json → Bool
  | none => false
  | some j => truthyJ j

mutual
/-- JavaScript string coercion `String(v)` of a parsed JSON value. -/
def jsShowJ : Json → JStr
  | .null => js "null"
  | .bool true => js "true"
  | .bool false => js "false"
  | .num n => (toString n).data
  | .str s => s
  | .arr xs => jsShowElems xs
  | .obj _ => js "[object Object]"

/-- Array coercion: elements joined with commas, `null` rendered empty. -/
def jsShowElems : List Json → JStr
  | [] => []
  | [Json.null] => []
  | [x] => jsShowJ x
  | Json.null :: y :: xs => ',' :: jsShowElems (y :: xs)
  | x :: y :: xs => jsShowJ x ++ ',' :: jsShowElems (y :: xs)
end

/-- String interpolation / `+=` coercion, `undefined` included. -/
def jsShow : Option Json → JStr
  | none => js "undefined"
  | some j => jsShowJ j

/-- JSON insignificant whitespace. -/
def isWsChar (c : Char) : Bool :=
  c = ' ' || c = '\t' || c = '\n' || c = '\x0d'

/-- Skip insignificant whitespace. -/
def skipWs : List Char → List Char
  | [] => []
  | c :: rest => if isWsChar c then skipWs rest else c :: rest

/-- Value of a hexadecimal digit. -/
def hexVal (c : Char) : Option Nat :=
  if c.isDigit then some (c.toNat - 48)
  else if 'a' ≤ c && c ≤ 'f' then some (c.toNat - 87)
  else if 'A' ≤ c && c ≤ 'F' then some (c.toNat - 55)
  else none

/-- Parse the body of a JSON string (opening quote already consumed):
characters until the closing quote, with the standard escapes; raw
control characters are rejected, as in `JSON.parse`. -/
def parseStringBody : List Char → Option (List Char × List Char)
  | [] => none
  | '"' :: rest => some ([], rest)
  | '\\' :: 'u' :: h1 :: h2 :: h3 :: h4 :: rest =>
    match hexVal h1, hexVal h2, hexVal h3, hexVal h4 with
    | some a, some b, some c, some d =>
      (parseStringBody rest).map
        (fun p => (Char.ofNat (((a * 16 + b) * 16 + c) * 16 + d) :: p.1, p.2))
    | _, _, _, _ => none
  | '\\' :: e :: rest =>
    match e with
    | '"' => (parseStringBody rest).map (fun p => ('"' :: p.1, p.2))
    | '\\' => (parseStringBody rest).map (fun p => ('\\' :: p.1, p.2))
    | '/' => (parseStringBody rest).map (fun p => ('/' :: p.1, p.2))
    | 'n' => (parseStringBody rest).map (fun p => ('\n' :: p.1, p.2))
    | 't' => (parseStringBody rest).map (fun p => ('\t' :: p.1, p.2))
    | 'r' => (parseStringBody rest).map (fun p => ('\x0d' :: p.1, p.2))
    | 'b' => (parseStringBody rest).map (fun p => ('\x08' :: p.1, p.2))
    | 'f' => (parseStringBody rest).map (fun p => ('\x0c' :: p.1, p.2))
    | _ => none
  | c :: rest =>
    if c.toNat < 32 then none
    else (parseStringBody rest).map (fun p => (c :: p.1, p.2))

/-- Split a leading run of decimal digits. -/
def spanDigits : List Char → (List Char × List Char)
  | [] => ([], [])
  | c :: rest =>
    if c.isDigit then
      let p := spanDigits rest
      (c :: p.1, p.2)
    else ([], c :: rest)

/-- Numeric value of a digit run. -/
def digitsToNat (ds : List Char) : Nat :=
  ds.foldl (fun acc c => acc * 10 + (c.toNat - 48)) 0

/-- Parse a JSON number.  Only integral numerals occur in the frames this
client consumes, so fractional and exponent forms are out of scope. -/
def parseNumber (cs : List Char) : Option (Json × List Char) :=
  match cs with
  | '-' :: rest =>
    match spanDigits rest with
    | ([], _) => none
    | (ds, rest2) => some (.num (-(digitsToNat ds : Int)), rest2)
  | _ =>
    match spanDigits cs with
    | ([], _) => none
    | (ds, rest2) => some (.num (digitsToNat ds : Int), rest2)

mutual
/-- Fuel-indexed parser for one JSON value, modelling `JSON.parse`. -/
def parseValue : Nat → List Char → Option (Json × List Char)
  | 0, _ => none
  | Nat.succ fuel, cs =>
    match skipWs cs with
    | 'n' :: 'u' :: 'l' :: 'l' :: rest => some (.null, rest)
    | 't' :: 'r' :: 'u' :: 'e' :: rest => some (.bool true, rest)
    | 'f' :: 'a' :: 'l' :: 's' :: 'e' :: rest => some (.bool false, rest)
    | '"' :: rest => (parseStringBody rest).map (fun p => (.str p.1, p.2))
    | '[' :: rest =>
      (match skipWs rest with
       | ']' :: rest2 => some (.arr [], rest2)
       | rest2 => (parseItems fuel rest2 []).map (fun p => (.arr p.1, p.2)))
    | '\x7b' :: rest =>
      (match skipWs rest with
       | '\x7d' :: rest2 => some (.obj [], rest2)
       | rest2 => (parseMembers fuel rest2 []).map (fun p => (.obj p.1, p.2)))
    | rest => parseNumber rest

/-- Parse the remaining comma-separated elements of a non-empty array. -/
def parseItems : Nat → List Char → List Json → Option (List Json × List Char)
  | 0, _, _ => none
  | Nat.succ fuel, cs, acc =>
    match parseValue fuel cs with
    | none => none
    | some (v, rest) =>
      match skipWs rest with
      | ',' :: rest2 => parseItems fuel rest2 (acc ++ [v])
      | ']' :: rest2 => some (acc ++ [v], rest2)
      | _ => none

/-- Parse the remaining members of a non-empty object. -/
def parseMembers : Nat → List Char → List (JStr × Json) →
    Option (List (JStr × Json) × List Char)
  | 0, _, _ => none
  | Nat.succ fuel, cs, acc =>
    match skipWs cs with
    | '"' :: rest =>
      match parseStringBody rest with
      | none => none
      | some (key, rest2) =>
        match skipWs rest2 with
        | ':' :: rest3 =>
          match parseValue fuel rest3 with
          | none => none
          | some (v, rest4) =>
            match skipWs rest4 with
            | ',' :: rest5 => parseMembers fuel rest5 (acc ++ [(key, v)])
            | '\x7d' :: rest5 => some (acc ++ [(key, v)], rest5)
            | _ => none
        | _ => none
    | _ => none
end

/-- Model of `JSON.parse`: `some` on a well-formed document with nothing
but whitespace after the value, `none` where `JSON.parse` throws.  The
fuel bound exceeds the recursion depth reachable on any input of this
length. -/
def parseJson (cs : JStr) : Option Json :=
  match parseValue (2 * cs.length + 2) cs with
  | some (v, rest) => if skipWs rest = [] then some v else none
  | none => none

/-!
Data model of `ChatInterface.tsx`.

`FunctionCall` mirrors the record built at lines 186–191; its constant
constant `function_call` type tag is omitted.  The message timestamp and
random id are environment effects (`Date.now()`) and are not part of the
reduced state.  The source keeps `textContent` and
`assistantMessage.content` in lockstep (lines 178–179), so the model
keeps a single `content` field.
-/

/-- Function-call record accumulated by the reducer (lines 186–193).
Fields are `Option` because the frame may omit them (JS `undefined`). -/
structure FunctionCall where
  function_name : Option Json
  function_args : Option Json
  function_result : Option Json

/-- Conversation-history entry: the user entries built at lines 98–101
and the assistant entries built at lines 219–228 (per-call ids, which
are `Date.now()` timestamps, omitted). -/
inductive HistoryItem where
  | user (content : JStr) : HistoryItem
  | assistant (text_content : JStr) (function_calls : List FunctionCall) : HistoryItem

/-- Body of the automatic follow-up POST to `/function-results` built by
`processFunctionCallResults` (lines 234–250): every accumulated record,
plus the conversation history extended with the assistant turn. -/
structure FollowUpBody where
  function_results : List FunctionCall
  conversation_history : List HistoryItem

/-- State of one `processStreamingResponse` run: the in-progress
assistant message (content and functionCalls), whether the terminal
sentinel was reached (the `return` at line 171), and the follow-up
request issued at that point, if any. -/
structure StreamState where
  content : JStr
  functionCalls : List FunctionCall
  finished : Bool
  followUp : Option FollowUpBody

/-- Fresh assistant message state (lines 134–143). -/
def initStream : StreamState :=
  { content := [], functionCalls := [], finished := false, followUp := none }

/-- The `data: ` line marker (line 156). -/
def dataMark : JStr := js "data: "

/-- The terminal sentinel payload (line 158). -/
def doneLit : JStr := js "[DONE]"

/-- Predicate selecting the records that continue the conversation
(lines 162–166): result not of recommendation type, not requiring user
action, not flagged final. -/
def shouldContinue (fc : FunctionCall) : Bool :=
  !(isStrEq (optField fc.function_result (js "type")) (js "mcp_recommendations")) &&
  !(isTrueVal (optField fc.function_result (js "requires_user_action"))) &&
  !(isTrueVal (optField fc.function_result (js "is_final")))

/-- Request body built by `processFunctionCallResults` (lines 213–250)
from the accumulated text and records, given the conversation history
current when the stream began. -/
def processFunctionCallResults (hist : List HistoryItem) (st : StreamState) :
    FollowUpBody :=
  { function_results := st.functionCalls,
    conversation_history := hist ++ [.assistant st.content st.functionCalls] }

/-- One iteration of the `for (const line of lines)` loop of
`processStreamingResponse` (lines 155–206).  After the sentinel the
source function has returned, so a finished state absorbs every further
line.  A payload on which `JSON.parse` throws is swallowed by the
`catch` at line 202; so is the property access on a non-object payload. -/
def processLine (hist : List HistoryItem) (st : StreamState) (line : JStr) :
    StreamState :=
  if st.finished then st
  else if dataMark.isPrefixOf line then
    if line.drop 6 = doneLit then
      { st with
        finished := true,
        followUp :=
          if st.functionCalls.any shouldContinue && decide (0 < st.functionCalls.length) then
            some (processFunctionCallResults hist st)
          else none }
    else
      match parseJson (line.drop 6) with
      | none => st
      | some parsed =>
        if isStrEq (getField parsed (js "type")) (js "text") then
          { st with content := st.content ++ jsShow (getField parsed (js "content")) }
        else if isStrEq (getField parsed (js "type")) (js "function_call") then
          { st with
            functionCalls := st.functionCalls ++
              [{ function_name := getField parsed (js "function_name"),
                 function_args := getField parsed (js "function_args"),
                 function_result := getField parsed (js "function_result") }] }
        else st
  else st

/-- The `chunk.split('\n')` of line 153: JavaScript `String.split` on a
single-character separator. -/
def splitNl : JStr → List JStr
  | [] => [[]]
  | c :: rest =>
    match splitNl rest with
    | [] => [[]]
    | l :: ls => if c = '\n' then [] :: l :: ls else (c :: l) :: ls

/-- One iteration of the chunk-read loop (lines 148–206): each decoded
chunk is split on newlines and every resulting piece is processed.  The
source keeps no pending-line buffer across chunks. -/
def processChunk (hist : List HistoryItem) (st : StreamState) (chunk : JStr) :
    StreamState :=
  (splitNl chunk).foldl (processLine hist) st

/-- `processStreamingResponse` over a whole sequence of decoded chunks
(`TextDecoder` with `stream: true` carries undecoded trailing bytes, so
chunks are modelled post-decoding as character sequences). -/
def processStreamingResponse (hist : List HistoryItem) (chunks : List JStr) :
    StreamState :=
  chunks.foldl (processChunk hist) initStream

/-!
Model of `processToolExecutionStream` (ChatInterface.tsx lines 404–505).
-/

/-- Indentation run for the pretty printer. -/
def indentSp (n : Nat) : JStr := List.replicate n ' '

/-- JSON string quoting as performed by `JSON.stringify`. -/
def quoteChar (c : Char) : JStr :=
  if c = '"' then js "\\\""
  else if c = '\\' then js "\\\\"
  else if c = '\n' then js "\\n"
  else if c = '\t' then js "\\t"
  else if c = '\x0d' then js "\\r"
  else if c = '\x08' then js "\\b"
  else if c = '\x0c' then js "\\f"
  else [c]

/-- Quoted JSON string literal. -/
def quoteStr (s : JStr) : JStr :=
  '"' :: (s.flatMap quoteChar) ++ ['"']

mutual
/-- Model of `JSON.stringify(v, null, 2)` at a given indentation. -/
def stringifyV : Nat → Json → JStr
  | _, .null => js "null"
  | _, .bool true => js "true"
  | _, .bool false => js "false"
  | _, .num n => (toString n).data
  | _, .str s => quoteStr s
  | _, .arr [] => js "[]"
  | ind, .arr (x :: xs) =>
    '[' :: '\n' :: stringifyElems (ind + 2) x xs ++ '\n' :: indentSp ind ++ [']']
  | _, .obj [] => js "\x7b\x7d"
  | ind, .obj ((k, v) :: kvs) =>
    '\x7b' :: '\n' :: stringifyMems (ind + 2) k v kvs ++ '\n' :: indentSp ind ++ ['\x7d']
termination_by _ j => sizeOf j

/-- Indented, comma-separated array elements. -/
def stringifyElems : Nat → Json → List Json → JStr
  | ind, x, [] => indentSp ind ++ stringifyV ind x
  | ind, x, y :: xs =>
    indentSp ind ++ stringifyV ind x ++ ',' :: '\n' :: stringifyElems ind y xs
termination_by _ x xs => 1 + sizeOf x + sizeOf xs

/-- Indented, comma-separated object members. -/
def stringifyMems : Nat → JStr → Json → List (JStr × Json) → JStr
  | ind, k, v, [] => indentSp ind ++ quoteStr k ++ ':' :: ' ' :: stringifyV ind v
  | ind, k, v, (k2, v2) :: kvs =>
    indentSp ind ++ quoteStr k ++ ':' :: ' ' :: stringifyV ind v ++
      ',' :: '\n' :: stringifyMems ind k2 v2 kvs
termination_by _ _ v kvs => 1 + sizeOf v + sizeOf kvs
end

/-- The text assigned to the tool message on a `tool_execution_result`
frame (lines 436–452), for a non-null `result` field `r`. -/
def renderExecResult (toolName : JStr) (r : Json) : JStr :=
  let resultMessage := js "🔧 **Tool Execution Result: `" ++ toolName ++ js "`**\n\n"
  let statusMessage :=
    if truthyO (getField r (js "success")) then
      js "✅ **Status**: " ++ jsShow (getField r (js "message")) ++ js "\n"
    else
      js "❌ **Status**: " ++ jsShow (getField r (js "message")) ++ js "\n"
  let detailsMessage :=
    js "**Execution Time**: " ++ jsShow (getField r (js "execution_time")) ++ js "ms\n\n"
  let resultContent :=
    match getField r (js "result") with
    | some (.arr xs) =>
      js "**Results** (" ++ js (toString xs.length) ++ js " items):\n```json\n" ++
        stringifyV 0 (.arr xs) ++ js "\n```\n\n"
    | some v =>
      if truthyJ v then
        js "**Result**:\n```json\n" ++ stringifyV 0 v ++ js "\n```\n\n"
      else []
    | none => []
  resultMessage ++ statusMessage ++ detailsMessage ++ resultContent

/-- Analysis text appended to an existing tool message (line 468). -/
def renderAnalysisAppend (content : Option Json) : JStr :=
  js "\n---\n\n🤖 **AI Analysis**:\n\n" ++ jsShow content

/-- Stand-alone analysis message created when no execution result was
captured (lines 478–483). -/
def renderAnalysisSolo (toolName : JStr) (content : Option Json) : JStr :=
  js "🤖 **AI Analysis of `" ++ toolName ++ js "` execution**:\n\n" ++ jsShow content

/-- Non-null test used to model the property accesses
`parsed.result.success` etc., which throw on `null`. -/
def Json.isNull : Json → Bool
  | .null => true
  | _ => false

/-- State of one `processToolExecutionStream` run: the single
`toolExecutionMessage` (its content and whether it has been added to the
display list), the `hasAiAnalysis` flag, the stand-alone analysis
messages created before any execution result, and sentinel completion. -/
structure ToolState where
  content : JStr
  hasExecutionResult : Bool
  hasAiAnalysis : Bool
  analysisMessages : List JStr
  finished : Bool

/-- Fresh tool-execution message state (lines 408–416). -/
def initTool : ToolState :=
  { content := [], hasExecutionResult := false, hasAiAnalysis := false,
    analysisMessages := [], finished := false }

/-- One line of `processToolExecutionStream` (lines 426–492).  A
`tool_execution_result` frame overwrites `content` (line 452) and marks
the message displayed; an `ai_analysis` frame appends to the message if
one exists (lines 466–475) and otherwise creates a stand-alone message
(lines 476–485).  Accessing `parsed.result.success` throws on a missing
or `null` `result`, and the `catch` at line 488 leaves state unchanged. -/
def processToolLine (toolName : JStr) (st : ToolState) (line : JStr) : ToolState :=
  if st.finished then st
  else if dataMark.isPrefixOf line then
    if line.drop 6 = doneLit then { st with finished := true }
    else
      match parseJson (line.drop 6) with
      | none => st
      | some parsed =>
        if isStrEq (getField parsed (js "type")) (js "tool_execution_result") then
          match getField parsed (js "result") with
          | none => st
          | some r =>
            if r.isNull then st
            else
              { st with
                content := renderExecResult toolName r,
                hasExecutionResult := true }
        else if isStrEq (getField parsed (js "type")) (js "ai_analysis") then
          if st.hasExecutionResult then
            { st with
              content := st.content ++ renderAnalysisAppend (getField parsed (js "content")),
              hasAiAnalysis := true }
          else
            { st with
              analysisMessages := st.analysisMessages ++
                [renderAnalysisSolo toolName (getField parsed (js "content"))],
              hasAiAnalysis := true }
        else st
  else st

/-- `processToolExecutionStream` over decoded chunks, mirroring the
chunk-read loop at lines 419–424. -/
def processToolExecutionStream (toolName : JStr) (chunks : List JStr) : ToolState :=
  chunks.foldl (fun st chunk => (splitNl chunk).foldl (processToolLine toolName) st) initTool

/-!
Model of the send-blocking UI state (`ChatInterface.tsx`).

`sendMessage` refuses to run while `isLoading` or `isProcessingFunctions`
holds (line 84), and the input and send button are disabled under the
same condition (lines 1127 and 1131).  The transitions mirror the flag
discipline of the source: `sendMessage` sets `isLoading` around its
stream and follow-up chain (lines 95 and 126); `processFunctionCallResults`
sets `isProcessingFunctions` around its stream (lines 216 and 267), and
since every `await` is strictly nested, the `finally` of `sendMessage` runs
only after that flag is back down; `handleAddServer` (lines 301–330)
opens its continuation stream without touching either flag.
-/

/-- Flags and in-flight streams of the chat screen. -/
structure UiState where
  isLoading : Bool
  isProcessingFunctions : Bool
  chainActive : Bool
  addContinuationActive : Bool

/-- Initial screen state (lines 48 and 58). -/
def initUi : UiState :=
  { isLoading := false, isProcessingFunctions := false,
    chainActive := false, addContinuationActive := false }

/-- A new user message is blocked: the guard of `sendMessage` (line 84)
and the `disabled` conditions of the input and button (1127, 1131). -/
def sendBlocked (s : UiState) : Bool :=
  s.isLoading || s.isProcessingFunctions

/-- Interleaved transitions of the three asynchronous flows. -/
inductive UiStep : UiState → UiState → Prop where
  | sendStart (s : UiState) :
      sendBlocked s = false →
      UiStep s { s with isLoading := true, chainActive := true }
  | sendFinish (s : UiState) :
      s.chainActive = true → s.isProcessingFunctions = false →
      UiStep s { s with isLoading := false, chainActive := false }
  | funcStart (s : UiState) :
      (s.chainActive || s.addContinuationActive) = true →
      s.isProcessingFunctions = false →
      UiStep s { s with isProcessingFunctions := true }
  | funcFinish (s : UiState) :
      s.isProcessingFunctions = true →
      UiStep s { s with isProcessingFunctions := false }
  | addStart (s : UiState) :
      UiStep s { s with addContinuationActive := true }
  | addFinish (s : UiState) :
      s.addContinuationActive = true →
      UiStep s { s with addContinuationActive := false }

/-- States the chat screen can actually be in. -/
inductive ReachableUi : UiState → Prop where
  | init : ReachableUi initUi
  | step {s t : UiState} : ReachableUi s → UiStep s t → ReachableUi t

/-!
Model of `McpCredentialModal.tsx`: `validateForm` (71–82) and
`handleSubmit` (84–118).
-/

/-- A credential field as described by the requirements payload; the
`type`, `placeholder` and `help` attributes do not affect validation. -/
structure CredentialField where
  name : JStr
  label : JStr
  required : Bool

/-- Lookup in the `credentials` record. -/
def lookupCred (creds : List (JStr × JStr)) (n : JStr) : Option JStr :=
  match creds with
  | [] => none
  | (k, v) :: rest => if k = n then some v else lookupCred rest n

/-- JavaScript `String.trim`. -/
def jsTrim (s : JStr) : JStr :=
  (s.dropWhile isWsChar).reverse.dropWhile isWsChar |>.reverse

/-- Truthiness of `credentials[field.name]?.trim()` (line 75). -/
def hasTrimmedValue (creds : List (JStr × JStr)) (n : JStr) : Bool :=
  match lookupCred creds n with
  | some v => decide (jsTrim v ≠ [])
  | none => false

/-- The error entries built by `validateForm` (lines 74–78). -/
def validateErrors (fields : List CredentialField) (creds : List (JStr × JStr)) :
    List (JStr × JStr) :=
  fields.filterMap fun f =>
    if f.required && !(hasTrimmedValue creds f.name) then
      some (f.name, f.label ++ js " is required")
    else none

/-- `validateForm` returns whether no error was recorded (line 81). -/
def validateForm (fields : List CredentialField) (creds : List (JStr × JStr)) : Bool :=
  (validateErrors fields creds).isEmpty

/-- The credential-submission POST body (line 101). -/
structure CredRequest where
  body : List (JStr × JStr)

/-- `handleSubmit`: no request unless validation passes (lines 87–89);
otherwise one POST carrying the credentials (lines 94–103). -/
def handleSubmit (fields : List CredentialField) (creds : List (JStr × JStr)) :
    Option CredRequest :=
  if validateForm fields creds then some { body := creds } else none

/-!
Helper lemmas about single reducer steps.
-/

/-- Fold preservation: an invariant kept by every step is kept by `foldl`. -/
theorem foldl_preserve {α σ : Type} (P : σ → Prop) (f : σ → α → σ)
    (h : ∀ s a, P s → P (f s a)) (l : List α) :
    ∀ s, P s → P (l.foldl f s) := by
  induction l with
  | nil => intro s hs; exact hs
  | cons a l ih => intro s hs; exact ih (f s a) (h s a hs)

/-- A finished stream state absorbs every further line. -/
theorem processLine_stuck (hist : List HistoryItem) (st : StreamState) (line : JStr)
    (h : st.finished = true) : processLine hist st line = st := by
  unfold processLine
  simp [h]

/-- A line whose payload is neither the sentinel nor parseable JSON leaves
the state untouched (so do non-`data: ` lines). -/
theorem processLine_skip (hist : List HistoryItem) (st : StreamState) (line : JStr)
    (hnd : line.drop 6 ≠ doneLit) (hparse : parseJson (line.drop 6) = none) :
    processLine hist st line = st := by
  unfold processLine
  split
  · rfl
  · split
    · simp [hnd, hparse]
    · rfl

/-- Message content can only be extended by a reducer step. -/
theorem processLine_content_mono (hist : List HistoryItem) (st : StreamState)
    (line : JStr) : st.content <+: (processLine hist st line).content := by
  unfold processLine
  split
  · exact List.prefix_rfl
  · split
    · split
      · exact List.prefix_rfl
      · split
        · exact List.prefix_rfl
        · split
          · exact List.prefix_append _ _
          · split
            · exact List.prefix_rfl
            · exact List.prefix_rfl
    · exact List.prefix_rfl

/-- The record list can only be extended by a reducer step. -/
theorem processLine_calls_mono (hist : List HistoryItem) (st : StreamState)
    (line : JStr) : st.functionCalls <+: (processLine hist st line).functionCalls := by
  unfold processLine
  split
  · exact List.prefix_rfl
  · split
    · split
      · exact List.prefix_rfl
      · split
        · exact List.prefix_rfl
        · split
          · exact List.prefix_rfl
          · split
            · exact List.prefix_append _ _
            · exact List.prefix_rfl
    · exact List.prefix_rfl

/-!
Claims.
-/

/-- Event sequence used to exhibit chunking dependence: one text frame
and the sentinel, each on its own complete line. -/
def c1Input : JStr := js "data: \x7b\"type\": \"text\", \"content\": \"A\"\x7d\ndata: [DONE]\n"

/-- Claim C1: splitting the same well-formed event sequence into chunks
at different byte offsets must produce an identical final message state.
The code violates this: it splits each chunk on newlines separately and
keeps no pending-line buffer, so a chunk boundary inside an event line
loses the frame.  Splitting `c1Input` after its 12th character makes the
accumulated content empty instead of "A". -/
theorem claim1_chunking_dependence :
    c1Input.take 12 ++ c1Input.drop 12 = c1Input ∧
    (processStreamingResponse [] [c1Input]).content = js "A" ∧
    (processStreamingResponse [] [c1Input.take 12, c1Input.drop 12]).content = [] ∧
    (processStreamingResponse [] [c1Input]).content ≠
      (processStreamingResponse [] [c1Input.take 12, c1Input.drop 12]).content :=
  ⟨List.take_append_drop 12 c1Input, rfl, rfl, by decide⟩

/-- Claim C9: the frames `text "A"`, `text "B"`, then the sentinel, each
on its own complete line, reduce to the message content "AB". -/
theorem claim9_text_frames_concatenate :
    (processStreamingResponse []
        [js "data: \x7b\"type\": \"text\", \"content\": \"A\"\x7d\ndata: \x7b\"type\": \"text\", \"content\": \"B\"\x7d\ndata: [DONE]\n"]).content
      = js "AB" := rfl

/-- Claim C5: a data line whose payload fails JSON parsing is skipped
silently — the state is unchanged, and folding the remaining lines from
that state is exactly folding them without the malformed line. -/
theorem claim5_malformed_line_skipped (hist : List HistoryItem) (st : StreamState)
    (line : JStr) (_hmark : dataMark.isPrefixOf line = true)
    (hnd : line.drop 6 ≠ doneLit) (hparse : parseJson (line.drop 6) = none) :
    processLine hist st line = st ∧
    ∀ rest : List JStr, List.foldl (processLine hist) st (line :: rest) =
      List.foldl (processLine hist) st rest := by
  have h1 : processLine hist st line = st := processLine_skip hist st line hnd hparse
  exact ⟨h1, fun rest => by rw [List.foldl_cons, h1]⟩

/-- Witness for C5 at a concrete malformed data line. -/
theorem claim5_witness :
    processLine [] initStream (js "data: \x7bbad") = initStream :=
  (claim5_malformed_line_skipped [] initStream (js "data: \x7bbad")
    (by decide) (by decide) rfl).1

/-- Claim C10: a line finalizes the stream exactly when it starts with
`data: ` and the remainder is exactly `[DONE]`; a payload of `[DONE]`
with any trailing character (for example a carriage return), or with a
leading space, is not the sentinel — it falls through to JSON parsing,
fails, and leaves the state unchanged. -/
theorem claim10_sentinel_exactness (hist : List HistoryItem) (st : StreamState)
    (h : st.finished = false) :
    (∀ line : JStr, ((processLine hist st line).finished = true ↔
        (dataMark.isPrefixOf line = true ∧ line.drop 6 = doneLit))) ∧
    (∀ (c : Char) (rest : JStr),
        processLine hist st (js "data: [DONE]" ++ c :: rest) = st) ∧
    processLine hist st (js "data:  [DONE]") = st := by
  refine ⟨?_, ?_, ?_⟩
  · intro line
    unfold processLine
    split
    · simp_all
    · split
      · split
        · simp_all
        · split
          · simp_all
          · split
            · simp_all
            · split
              · simp_all
              · simp_all
      · simp_all
  · intro c rest
    refine processLine_skip hist st _ ?_ rfl
    intro hcontra
    have hlen := congrArg List.length hcontra
    simp [doneLit, js] at hlen
  · exact processLine_skip hist st _ (by decide) rfl

/-- Witness for C10: the exact sentinel finalizes; `[DONE]` followed by a
carriage return, or preceded by a space, does not. -/
theorem claim10_witness :
    (processLine [] initStream (js "data: [DONE]")).finished = true ∧
    processLine [] initStream (js "data: [DONE]" ++ '\x0d' :: []) = initStream ∧
    processLine [] initStream (js "data:  [DONE]") = initStream :=
  ⟨((claim10_sentinel_exactness [] initStream rfl).1 (js "data: [DONE]")).mpr (by decide),
    (claim10_sentinel_exactness [] initStream rfl).2.1 '\x0d' [],
    (claim10_sentinel_exactness [] initStream rfl).2.2⟩

/-- A record whose `function_result.type` is `mcp_recommendations`. -/
def RecTyped (fc : FunctionCall) : Bool :=
  isStrEq (optField fc.function_result (js "type")) (js "mcp_recommendations")

/-- A recommendation-typed record never continues the conversation. -/
theorem shouldContinue_eq_false_of_recTyped (fc : FunctionCall)
    (h : RecTyped fc = true) : shouldContinue fc = false := by
  unfold shouldContinue
  unfold RecTyped at h
  rw [h]
  rfl

/-- Invariant for C3: when every accumulated record is
recommendation-typed, no follow-up request has been recorded. -/
def RecInv (st : StreamState) : Prop :=
  (∀ fc ∈ st.functionCalls, RecTyped fc = true) → st.followUp = none

/-- `RecInv` is preserved by every reducer step. -/
theorem processLine_recInv (hist : List HistoryItem) (st : StreamState) (line : JStr)
    (hP : RecInv st) : RecInv (processLine hist st line) := by
  unfold RecInv at *
  unfold processLine
  split
  · exact hP
  · split
    · split
      · intro hall
        simp only at hall ⊢
        have hany : st.functionCalls.any shouldContinue = false := by
          cases hany : st.functionCalls.any shouldContinue with
          | false => rfl
          | true =>
            obtain ⟨fc, hmem, hsc⟩ := List.any_eq_true.mp hany
            rw [shouldContinue_eq_false_of_recTyped fc (hall fc hmem)] at hsc
            exact absurd hsc (by simp)
        simp [hany]
      · split
        · exact hP
        · split
          · exact hP
          · split
            · intro hall
              exact hP fun fc hm => hall fc (List.mem_append_left _ hm)
            · exact hP
    · exact hP

/-- Claim C3: a stream whose accumulated records are all
recommendation-typed issues no automatic follow-up request. -/
theorem claim3_recommendations_no_followup (hist : List HistoryItem)
    (chunks : List JStr)
    (h : ∀ fc ∈ (processStreamingResponse hist chunks).functionCalls,
        RecTyped fc = true) :
    (processStreamingResponse hist chunks).followUp = none := by
  have hstep : ∀ s chunk, RecInv s → RecInv (processChunk hist s chunk) :=
    fun s chunk hs =>
      foldl_preserve RecInv (processLine hist)
        (fun s line hs => processLine_recInv hist s line hs) (splitNl chunk) s hs
  exact foldl_preserve RecInv (processChunk hist) hstep chunks initStream (fun _ => rfl) h

set_option maxRecDepth 8000 in
/-- Witness for C3: one recommendation function call then the sentinel
leaves the chain paused, with no follow-up. -/
theorem claim3_witness :
    (processStreamingResponse []
      [js "data: \x7b\"type\": \"function_call\", \"function_name\": \"recommend_mcp_servers\", \"function_args\": \x7b\x7d, \"function_result\": \x7b\"type\": \"mcp_recommendations\"\x7d\x7d\ndata: [DONE]\n"]).followUp
      = none :=
  claim3_recommendations_no_followup [] _ (by decide)

/-- Invariant for C4: once the sentinel has been observed, the recorded
follow-up is exactly the one computed from the state at that point. -/
def DoneInv (hist : List HistoryItem) (st : StreamState) : Prop :=
  st.finished = true →
    st.followUp =
      if st.functionCalls.any shouldContinue && decide (0 < st.functionCalls.length) then
        some (processFunctionCallResults hist st)
      else none

/-- `DoneInv` is preserved by every reducer step. -/
theorem processLine_doneInv (hist : List HistoryItem) (st : StreamState) (line : JStr)
    (hP : DoneInv hist st) : DoneInv hist (processLine hist st line) := by
  unfold DoneInv at *
  unfold processLine
  split
  · exact hP
  · split
    · split
      · intro _
        rfl
      · split
        · exact hP
        · split
          · intro hfin
            simp only at hfin
            simp_all
          · split
            · intro hfin
              simp only at hfin
              simp_all
            · exact hP
    · exact hP

/-- Claim C4: when the stream reached its sentinel and some accumulated
record has none of the terminal markers, the follow-up request is issued
and its body carries every accumulated record plus the conversation
history extended with the assistant turn. -/
theorem claim4_auto_followup_issued (hist : List HistoryItem) (chunks : List JStr)
    (hfin : (processStreamingResponse hist chunks).finished = true)
    (hc : (processStreamingResponse hist chunks).functionCalls.any shouldContinue = true) :
    (processStreamingResponse hist chunks).followUp =
      some { function_results := (processStreamingResponse hist chunks).functionCalls,
             conversation_history := hist ++
               [HistoryItem.assistant (processStreamingResponse hist chunks).content
                 (processStreamingResponse hist chunks).functionCalls] } := by
  have hstep : ∀ s chunk, DoneInv hist s → DoneInv hist (processChunk hist s chunk) :=
    fun s chunk hs =>
      foldl_preserve (DoneInv hist) (processLine hist)
        (fun s line hs => processLine_doneInv hist s line hs) (splitNl chunk) s hs
  have hinv : DoneInv hist (processStreamingResponse hist chunks) :=
    foldl_preserve (DoneInv hist) (processChunk hist) hstep chunks initStream
      (fun hf => nomatch hf)
  have hne : (processStreamingResponse hist chunks).functionCalls ≠ [] := by
    intro hnil
    rw [hnil] at hc
    exact absurd hc (by simp)
  have hlen : 0 < (processStreamingResponse hist chunks).functionCalls.length :=
    List.length_pos.mpr hne
  have := hinv hfin
  rw [hc, decide_eq_true hlen] at this
  simpa [processFunctionCallResults] using this

set_option maxRecDepth 8000 in
/-- Witness for C4: one continuable function call then the sentinel
issues the follow-up carrying that record and the extended history. -/
theorem claim4_witness :
    (processStreamingResponse []
      [js "data: \x7b\"type\": \"function_call\", \"function_name\": \"web_search\", \"function_args\": \x7b\x7d, \"function_result\": \x7b\"type\": \"web_search_results\"\x7d\x7d\ndata: [DONE]\n"]).followUp
      = some { function_results :=
                 (processStreamingResponse []
                   [js "data: \x7b\"type\": \"function_call\", \"function_name\": \"web_search\", \"function_args\": \x7b\x7d, \"function_result\": \x7b\"type\": \"web_search_results\"\x7d\x7d\ndata: [DONE]\n"]).functionCalls,
               conversation_history :=
                 [HistoryItem.assistant
                   (processStreamingResponse []
                     [js "data: \x7b\"type\": \"function_call\", \"function_name\": \"web_search\", \"function_args\": \x7b\x7d, \"function_result\": \x7b\"type\": \"web_search_results\"\x7d\x7d\ndata: [DONE]\n"]).content
                   (processStreamingResponse []
                     [js "data: \x7b\"type\": \"function_call\", \"function_name\": \"web_search\", \"function_args\": \x7b\x7d, \"function_result\": \x7b\"type\": \"web_search_results\"\x7d\x7d\ndata: [DONE]\n"]).functionCalls] } := by
  have h := claim4_auto_followup_issued []
    [js "data: \x7b\"type\": \"function_call\", \"function_name\": \"web_search\", \"function_args\": \x7b\x7d, \"function_result\": \x7b\"type\": \"web_search_results\"\x7d\x7d\ndata: [DONE]\n"]
    (by decide) (by decide)
  simpa using h

/-- A finished tool stream state absorbs every further line. -/
theorem processToolLine_stuck (toolName : JStr) (st : ToolState) (line : JStr)
    (h : st.finished = true) : processToolLine toolName st line = st := by
  unfold processToolLine
  simp [h]

/-- Tool-message discipline: before the first execution result the
message text is still empty. -/
def ToolInv (st : ToolState) : Prop :=
  st.hasExecutionResult = false → st.content = []

/-- A data line carrying a `tool_execution_result` frame. -/
def isExecResultData (line : JStr) : Bool :=
  dataMark.isPrefixOf line && !(line.drop 6 == doneLit) &&
    (match parseJson (line.drop 6) with
     | some parsed => isStrEq (getField parsed (js "type")) (js "tool_execution_result")
     | none => false)

/-- `ToolInv` is preserved by every tool-stream step. -/
theorem processToolLine_toolInv (toolName : JStr) (st : ToolState) (line : JStr)
    (h : ToolInv st) : ToolInv (processToolLine toolName st line) := by
  unfold ToolInv at *
  unfold processToolLine
  split
  · exact h
  · split
    · split
      · exact h
      · split
        · exact h
        · split
          · split
            · exact h
            · split
              · exact h
              · exact fun hf => nomatch hf
          · split
            · split
              · intro hf
                simp_all
              · exact h
            · exact h
    · exact h

/-- Tool-message content only grows on steps that are not a second
execution-result frame. -/
theorem processToolLine_content_mono (toolName : JStr) (st : ToolState) (line : JStr)
    (hInv : ToolInv st)
    (hcond : isExecResultData line = false ∨ st.hasExecutionResult = false) :
    st.content <+: (processToolLine toolName st line).content := by
  rcases hcond with hline | hexec
  · unfold processToolLine
    split
    · exact List.prefix_rfl
    · split
      · split
        · exact List.prefix_rfl
        · split
          · exact List.prefix_rfl
          · split
            · split
              · exact List.prefix_rfl
              · split
                · exact List.prefix_rfl
                · exfalso
                  simp_all [isExecResultData]
            · split
              · split
                · exact List.prefix_append _ _
                · exact List.prefix_rfl
              · exact List.prefix_rfl
      · exact List.prefix_rfl
  · rw [hInv hexec]
    exact List.nil_prefix

/-- Stand-alone analysis messages are only ever appended. -/
theorem processToolLine_analysis_mono (toolName : JStr) (st : ToolState) (line : JStr) :
    st.analysisMessages <+: (processToolLine toolName st line).analysisMessages := by
  unfold processToolLine
  split
  · exact List.prefix_rfl
  · split
    · split
      · exact List.prefix_rfl
      · split
        · exact List.prefix_rfl
        · split
          · split
            · exact List.prefix_rfl
            · split
              · exact List.prefix_rfl
              · exact List.prefix_rfl
          · split
            · split
              · exact List.prefix_rfl
              · exact List.prefix_append _ _
            · exact List.prefix_rfl
    · exact List.prefix_rfl

set_option maxRecDepth 16000 in
/-- Claim C2 counterexample: a second `tool_execution_result` frame
replaces the message text with a shorter one, so tool-message content is
not append-only for repeated execution-result frames. -/
theorem claim2_append_only_counterexample :
    ((processToolExecutionStream (js "query")
        [js "data: \x7b\"type\": \"tool_execution_result\", \"result\": \x7b\"success\": true, \"message\": \"finished in good order\", \"execution_time\": 5\x7d\x7d"]).content).isPrefixOf
      ((processToolExecutionStream (js "query")
        [js "data: \x7b\"type\": \"tool_execution_result\", \"result\": \x7b\"success\": true, \"message\": \"finished in good order\", \"execution_time\": 5\x7d\x7d",
         js "data: \x7b\"type\": \"tool_execution_result\", \"result\": \x7b\"success\": true, \"message\": \"x\", \"execution_time\": 5\x7d\x7d"]).content) = false ∧
    (processToolExecutionStream (js "query")
        [js "data: \x7b\"type\": \"tool_execution_result\", \"result\": \x7b\"success\": true, \"message\": \"finished in good order\", \"execution_time\": 5\x7d\x7d",
         js "data: \x7b\"type\": \"tool_execution_result\", \"result\": \x7b\"success\": true, \"message\": \"x\", \"execution_time\": 5\x7d\x7d"]).content.length <
      (processToolExecutionStream (js "query")
        [js "data: \x7b\"type\": \"tool_execution_result\", \"result\": \x7b\"success\": true, \"message\": \"finished in good order\", \"execution_time\": 5\x7d\x7d"]).content.length := by
  constructor
  · decide
  · decide

/-- Claim C2, amended: the chat reducer is append-only in content and
records and is inert after the sentinel; the tool-execution reducer is
inert after the sentinel, keeps its empty-until-first-result discipline,
appends to its stand-alone analysis list, and its message content only
grows on steps that are not a repeated `tool_execution_result` frame. -/
theorem claim2_append_only_amended :
    (∀ (hist : List HistoryItem) (st : StreamState) (line : JStr),
        st.content <+: (processLine hist st line).content ∧
        st.functionCalls <+: (processLine hist st line).functionCalls ∧
        (st.finished = true → processLine hist st line = st)) ∧
    (∀ (toolName : JStr) (st : ToolState) (line : JStr),
        (st.finished = true → processToolLine toolName st line = st) ∧
        (ToolInv st → ToolInv (processToolLine toolName st line)) ∧
        (ToolInv st → (isExecResultData line = false ∨ st.hasExecutionResult = false) →
          st.content <+: (processToolLine toolName st line).content) ∧
        st.analysisMessages <+: (processToolLine toolName st line).analysisMessages) :=
  ⟨fun hist st line =>
    ⟨processLine_content_mono hist st line, processLine_calls_mono hist st line,
      processLine_stuck hist st line⟩,
   fun toolName st line =>
    ⟨processToolLine_stuck toolName st line, processToolLine_toolInv toolName st line,
      fun hInv hcond => processToolLine_content_mono toolName st line hInv hcond,
      processToolLine_analysis_mono toolName st line⟩⟩

/-- Witness for the amended C2 at concrete states and lines. -/
theorem claim2_append_only_witness :
    initStream.content <+:
      (processLine [] initStream (js "data: \x7b\"type\": \"text\", \"content\": \"A\"\x7d")).content ∧
    processToolLine (js "q") { initTool with finished := true } (js "data: [DONE]")
      = { initTool with finished := true } ∧
    initTool.content <+:
      (processToolLine (js "q") initTool
        (js "data: \x7b\"type\": \"ai_analysis\", \"content\": \"hi\"\x7d")).content :=
  ⟨(claim2_append_only_amended.1 [] initStream _).1,
   (claim2_append_only_amended.2 (js "q") { initTool with finished := true } _).1 rfl,
   (claim2_append_only_amended.2 (js "q") initTool _).2.2.1 (fun _ => rfl) (Or.inr rfl)⟩

/-- Claim C7: processing a `tool_execution_result` frame and then an
`ai_analysis` frame yields a single display message — the execution
message exists, no stand-alone analysis message was created — and its
text is the rendered structured result followed by the analysis text. -/
theorem claim7_single_message_result_before_analysis
    (toolName lineE lineA : JStr) (pE pA r : Json)
    (hE1 : dataMark.isPrefixOf lineE = true)
    (hE2 : parseJson (lineE.drop 6) = some pE)
    (hE3 : getField pE (js "type") = some (.str (js "tool_execution_result")))
    (hE4 : getField pE (js "result") = some r)
    (hr : r.isNull = false)
    (hA1 : dataMark.isPrefixOf lineA = true)
    (hA2 : parseJson (lineA.drop 6) = some pA)
    (hA3 : getField pA (js "type") = some (.str (js "ai_analysis"))) :
    (List.foldl (processToolLine toolName) initTool [lineE, lineA]).hasExecutionResult = true ∧
    (List.foldl (processToolLine toolName) initTool [lineE, lineA]).analysisMessages = [] ∧
    (List.foldl (processToolLine toolName) initTool [lineE, lineA]).content =
      renderExecResult toolName r ++ renderAnalysisAppend (getField pA (js "content")) := by
  have hnd1 : lineE.drop 6 ≠ doneLit := by
    intro h
    rw [h] at hE2
    simp [show parseJson doneLit = none from rfl] at hE2
  have hnd2 : lineA.drop 6 ≠ doneLit := by
    intro h
    rw [h] at hA2
    simp [show parseJson doneLit = none from rfl] at hA2
  have hstep1 : processToolLine toolName initTool lineE =
      { content := renderExecResult toolName r, hasExecutionResult := true,
        hasAiAnalysis := false, analysisMessages := [], finished := false } := by
    unfold processToolLine
    simp [initTool, hE1, hnd1, hE2, hE3, hE4, hr,
      show isStrEq (some (Json.str (js "tool_execution_result")))
        (js "tool_execution_result") = true from rfl]
  have hstep2 : processToolLine toolName
      { content := renderExecResult toolName r, hasExecutionResult := true,
        hasAiAnalysis := false, analysisMessages := [], finished := false } lineA =
      { content := renderExecResult toolName r ++ renderAnalysisAppend (getField pA (js "content")),
        hasExecutionResult := true, hasAiAnalysis := true,
        analysisMessages := [], finished := false } := by
    unfold processToolLine
    simp [hA1, hnd2, hA2, hA3,
      show isStrEq (some (Json.str (js "ai_analysis")))
        (js "tool_execution_result") = false from rfl,
      show isStrEq (some (Json.str (js "ai_analysis")))
        (js "ai_analysis") = true from rfl]
  rw [List.foldl_cons, List.foldl_cons, List.foldl_nil, hstep1, hstep2]
  exact ⟨rfl, rfl, rfl⟩

set_option maxRecDepth 16000 in
/-- Witness for C7 at a concrete execution-result frame and analysis
frame. -/
theorem claim7_witness :
    (List.foldl (processToolLine (js "list_tables")) initTool
        [js "data: \x7b\"type\": \"tool_execution_result\", \"result\": \x7b\"success\": true, \"message\": \"ok\", \"execution_time\": 3\x7d\x7d",
         js "data: \x7b\"type\": \"ai_analysis\", \"content\": \"looks good\"\x7d"]).hasExecutionResult = true ∧
    (List.foldl (processToolLine (js "list_tables")) initTool
        [js "data: \x7b\"type\": \"tool_execution_result\", \"result\": \x7b\"success\": true, \"message\": \"ok\", \"execution_time\": 3\x7d\x7d",
         js "data: \x7b\"type\": \"ai_analysis\", \"content\": \"looks good\"\x7d"]).analysisMessages = [] ∧
    (List.foldl (processToolLine (js "list_tables")) initTool
        [js "data: \x7b\"type\": \"tool_execution_result\", \"result\": \x7b\"success\": true, \"message\": \"ok\", \"execution_time\": 3\x7d\x7d",
         js "data: \x7b\"type\": \"ai_analysis\", \"content\": \"looks good\"\x7d"]).content =
      renderExecResult (js "list_tables")
          (.obj [(js "success", .bool true), (js "message", .str (js "ok")),
                 (js "execution_time", .num 3)]) ++
        renderAnalysisAppend (some (.str (js "looks good"))) :=
  claim7_single_message_result_before_analysis (js "list_tables") _ _
    (.obj [(js "type", .str (js "tool_execution_result")),
           (js "result", .obj [(js "success", .bool true), (js "message", .str (js "ok")),
                               (js "execution_time", .num 3)])])
    (.obj [(js "type", .str (js "ai_analysis")), (js "content", .str (js "looks good"))])
    (.obj [(js "success", .bool true), (js "message", .str (js "ok")),
           (js "execution_time", .num 3)])
    (by decide) rfl rfl rfl rfl (by decide) rfl rfl

/-- The screen state while only a `handleAddServer` continuation stream
is in flight. -/
def uiAddActive : UiState :=
  { isLoading := false, isProcessingFunctions := false,
    chainActive := false, addContinuationActive := true }

/-- The screen state with a `sendMessage` chain and a `handleAddServer`
continuation stream simultaneously in flight. -/
def uiBothActive : UiState :=
  { isLoading := true, isProcessingFunctions := false,
    chainActive := true, addContinuationActive := true }

/-- Claim C6 counterexample: the continuation stream opened by
`handleAddServer` is reachable with both flags down, so sending is not
blocked there, and a `sendMessage` stream can then start while that
continuation stream is still in flight — two concurrent streams. -/
theorem claim6_blocking_counterexample :
    ReachableUi uiAddActive ∧ sendBlocked uiAddActive = false ∧
    ReachableUi uiBothActive := by
  have h1 : ReachableUi uiAddActive :=
    ReachableUi.step ReachableUi.init (UiStep.addStart initUi)
  have h2 : ReachableUi uiBothActive :=
    ReachableUi.step h1 (UiStep.sendStart uiAddActive rfl)
  exact ⟨h1, rfl, h2⟩

/-- Claim C6, amended: while a `sendMessage` stream or its automatic
follow-up chain is in flight, sending a new user message is blocked; the
`handleAddServer` continuation stream carries no such protection. -/
theorem claim6_blocking_amended (s : UiState) (h : ReachableUi s)
    (hc : s.chainActive = true) : sendBlocked s = true := by
  have hinv : ∀ t, ReachableUi t → (t.chainActive = true → t.isLoading = true) := by
    intro t ht
    induction ht with
    | init => exact fun hca => nomatch hca
    | step hr hs ih =>
      cases hs with
      | sendStart hgd => exact fun _ => rfl
      | sendFinish h1 h2 => exact fun hca => nomatch hca
      | funcStart h1 h2 => exact ih
      | funcFinish h1 => exact ih
      | addStart => exact ih
      | addFinish h1 => exact ih
  unfold sendBlocked
  rw [hinv s h hc]
  rfl

/-- Witness for the amended C6: right after `sendMessage` starts its
stream, sending is blocked. -/
theorem claim6_witness :
    sendBlocked { isLoading := true, isProcessingFunctions := false,
                  chainActive := true, addContinuationActive := false } = true :=
  claim6_blocking_amended _
    (ReachableUi.step ReachableUi.init (UiStep.sendStart initUi rfl)) rfl

/-- Validation passes exactly when every required field has a non-empty
trimmed value. -/
theorem validateForm_eq_true_iff (fields : List CredentialField)
    (creds : List (JStr × JStr)) :
    validateForm fields creds = true ↔
      ∀ f ∈ fields, f.required = true → hasTrimmedValue creds f.name = true := by
  unfold validateForm validateErrors
  rw [List.isEmpty_iff, List.filterMap_eq_nil_iff]
  constructor
  · intro h f hf hreq
    have h2 := h f hf
    cases hv : hasTrimmedValue creds f.name with
    | true => rfl
    | false =>
      rw [hreq, hv] at h2
      simp at h2
  · intro h f hf
    cases hreq : f.required with
    | false => simp [hreq]
    | true => simp [hreq, h f hf hreq]

/-- Claim C8: a form with some required field empty after trimming sends
no request and marks each such field with its inline error; the request
is sent exactly when every required field is non-empty after trimming. -/
theorem claim8_required_field_validation (fields : List CredentialField)
    (creds : List (JStr × JStr)) :
    ((∃ f ∈ fields, f.required = true ∧ hasTrimmedValue creds f.name = false) →
      handleSubmit fields creds = none ∧
      ∀ f ∈ fields, f.required = true → hasTrimmedValue creds f.name = false →
        (f.name, f.label ++ js " is required") ∈ validateErrors fields creds) ∧
    (handleSubmit fields creds = some { body := creds } ↔
      ∀ f ∈ fields, f.required = true → hasTrimmedValue creds f.name = true) := by
  constructor
  · rintro ⟨f, hf, hreq, hv⟩
    have hval : validateForm fields creds = false := by
      cases hval : validateForm fields creds with
      | false => rfl
      | true =>
        have := (validateForm_eq_true_iff fields creds).mp hval f hf hreq
        rw [hv] at this
        exact absurd this (by simp)
    constructor
    · unfold handleSubmit
      rw [hval]
      rfl
    · intro g hg hgr hgv
      refine List.mem_filterMap.mpr ⟨g, hg, ?_⟩
      rw [hgr, hgv]
      rfl
  · constructor
    · intro hsub
      apply (validateForm_eq_true_iff fields creds).mp
      cases hval : validateForm fields creds with
      | true => rfl
      | false =>
        unfold handleSubmit at hsub
        rw [hval] at hsub
        exact absurd hsub (by simp)
    · intro hall
      unfold handleSubmit
      rw [(validateForm_eq_true_iff fields creds).mpr hall]
      rfl

/-- Witness for C8: a single required field submitted with whitespace is
rejected with its inline error and no request; a non-empty value is
submitted. -/
theorem claim8_witness :
    handleSubmit [{ name := js "api_key", label := js "API Key", required := true }]
        [(js "api_key", js "  ")] = none ∧
    (js "api_key", js "API Key" ++ js " is required") ∈
      validateErrors [{ name := js "api_key", label := js "API Key", required := true }]
        [(js "api_key", js "  ")] ∧
    handleSubmit [{ name := js "api_key", label := js "API Key", required := true }]
        [(js "api_key", js "tok")] =
      some { body := [(js "api_key", js "tok")] } := by
  have hex : ∃ f ∈ ([{ name := js "api_key", label := js "API Key", required := true }] :
        List CredentialField),
      f.required = true ∧
      hasTrimmedValue [(js "api_key", js "  ")] f.name = false :=
    ⟨_, List.mem_singleton_self _, rfl, by decide⟩
  have hpart := (claim8_required_field_validation
    [{ name := js "api_key", label := js "API Key", required := true }]
    [(js "api_key", js "  ")]).1 hex
  refine ⟨hpart.1, hpart.2 _ (List.mem_singleton_self _) rfl (by decide), ?_⟩
  exact (claim8_required_field_validation _ _).2.mpr
    (by
      intro f hf hreq
      rw [List.mem_singleton] at hf
      subst hf
      decide)
